import Mathlib

/-!
# The Torero Shell (`tosh.c`): command-execution engine

A shallow embedding of the dispatcher (`handleCommand`), the process launcher
(`runExternalCommand`), the pipeline code (`check_if_pipe`, `call_pipe`,
`run_pipe`), the redirection scan (`ioRedirect`) and the directory builtin
(`runCD`).

Conventions.

* A C string is a `String`; its characters stand for bytes.
* A NULL-terminated `char **` is the `List String` of the entries before the
  terminator.  An array whose cells may have been overwritten with `NULL` is a
  `List (Option String)`; the vector an `exec` call sees is the part before
  the first `NULL` cell (`nullTerminated`).
* What the operating system answers (`fork`, `access`, `execv`, `execvp`,
  `chdir`, `open`, the environment) and what the history store answers are
  parameters of the definitions.
* The buffers `input`, `output`, `error` (`char[64]`) of `ioRedirect` and
  `absolute_path` (`char[MAXLINE]`) of `runExternalCommand` have their
  capacity: a copy that does not fit, terminator included, is undefined.
  `MAXLINE` is declared in `parse_args.h`, outside the sources at hand, and is
  a parameter.  In `runCD` the tracked buffer `cwd` and `new_cwd` are taken to
  hold the paths written to them.
* A step the C standard leaves undefined (reading through a NULL pointer,
  indexing outside the argument array, writing past a buffer) makes the
  outcome `none` / `fault`.
-/

namespace Tosh

/-! ## `ioRedirect` -/

/-- Things a process does that the outside can observe. -/
inductive Ev where
  | open_ (path : String) (flags : String) (fd : Int)
  | perror (msg : Option String)
  | dup2 (oldfd : Int) (newfd : Int)
  | close (fd : Int)
  | access (path : Option String) (ok : Bool)
  | execv (path : Option String) (argv : List String)
  | execvp (file : Option String) (argv : List String)
  | waitpid (pid : Int) (nohang : Bool)
  | stderr (text : String)
  | stdout (text : String)
  deriving DecidableEq, Repr

/-- The flags `in`, `out`, `err` of `ioRedirect` together with the buffers
`input`, `output`, `error`: a field is `some p` when the flag is 1 and the
buffer holds `p`. -/
structure Capture where
  input : Option String
  output : Option String
  error : Option String
  deriving DecidableEq, Repr

/-- Initial flags: `out = 0, err = 0, in = 0`. -/
def Capture.init : Capture := ⟨none, none, none⟩

/-- The test `in || out || err`. -/
def Capture.any (c : Capture) : Bool :=
  c.input.isSome || c.output.isSome || c.error.isSome

/-- The call `strcpy(buf, args[i+1])` into one of the `char[64]` buffers of
`ioRedirect`: undefined when the source is NULL or when its bytes and the
terminator do not fit into 64 bytes. -/
def strcpy64 : Option String → Option String
  | none => none
  | some s => if s.length < 64 then some s else none

/-- The three `strcmp` tests of one loop iteration on the token `a = args[i]`,
with `next = args[i+1]`, each followed by its `strcpy` into a 64-byte
buffer. -/
def captureStep (a : String) (next : Option String) (c : Capture) : Option Capture :=
  match (if a = "<" then (strcpy64 next).map (fun p => { c with input := some p })
         else some c) with
  | none => none
  | some c1 =>
    match (if a = "1>" then (strcpy64 next).map (fun p => { c1 with output := some p })
           else some c1) with
    | none => none
    | some c2 =>
      if a = "2>" then (strcpy64 next).map (fun p => { c2 with error := some p })
      else some c2

/-- The `while (args[i] != NULL)` loop of `ioRedirect`, run on the cells
`args[i], args[i+1], ...` up to the terminator; returns the cells as the loop
leaves them and the final flags and buffers. -/
def ioRedirectScan : List String → Capture → Option (List (Option String) × Capture)
  | [], c => some ([], c)
  | a :: rest, c =>
    match captureStep a rest.head? c with
    | none => none
    | some c1 =>
      match ioRedirectScan rest c1 with
      | none => none
      | some (cells, cf) => some ((if c1.any then none else some a) :: cells, cf)

/-- The descriptor rewiring after the scan (`open`, `dup2`, `close`), with
`openFd path` the descriptor `open` returns (negative on failure). -/
def rewire (openFd : String → Int) (c : Capture) : List Ev :=
  (match c.input with
   | none => []
   | some p =>
     [Ev.open_ p "O_RDONLY" (openFd p)]
       ++ (if openFd p < 0 then [Ev.perror (some "Error opening file\n")] else [])
       ++ [Ev.dup2 (openFd p) 0, Ev.close (openFd p)])
  ++ (match c.output with
   | none => []
   | some p =>
     [Ev.open_ p "O_CREAT|O_TRUNC|O_WRONLY" (openFd p)]
       ++ (if openFd p < 0 then [Ev.perror (some "Open failed\n")] else [])
       ++ [Ev.dup2 (openFd p) 1, Ev.close (openFd p)])
  ++ (match c.error with
   | none => []
   | some p =>
     [Ev.open_ p "O_CREAT|O_TRUNC|O_WRONLY" (openFd p)]
       ++ (if openFd p < 0 then [Ev.perror (some "Error opening output file\n")] else [])
       ++ [Ev.dup2 (openFd p) 2, Ev.close (openFd p)])

/-- What `ioRedirect` leaves behind: the array cells, the captured paths and
the descriptor operations performed. -/
structure Redirected where
  cells : List (Option String)
  capture : Capture
  events : List Ev
  deriving DecidableEq, Repr

/-- The vector a NULL-terminated reader (an `exec` call) sees in an array of
cells: everything before the first NULL. -/
def nullTerminated : List (Option String) → List String
  | some a :: rest => a :: nullTerminated rest
  | _ => []

/-- The argument vector left for the `exec` call. -/
def Redirected.argv (r : Redirected) : List String := nullTerminated r.cells

/-- The function `ioRedirect(args)`.  The source declares `int i` without initialising it;
`i0` is the value `i` happens to hold when the loop starts.  Cells below `i0`
are never touched; an `i0` beyond the terminator reads outside the array. -/
def ioRedirect (openFd : String → Int) (i0 : Nat) (args : List String) : Option Redirected :=
  if i0 ≤ args.length then
    match ioRedirectScan (args.drop i0) Capture.init with
    | none => none
    | some (cells, c) =>
      some { cells := (args.take i0).map some ++ cells, capture := c, events := rewire openFd c }
  else none

/-- A redirection operator token. -/
def isRedirOp (t : String) : Bool := t == "<" || t == "1>" || t == "2>"

/-- Every redirection operator is immediately followed by a path token, of at
most 63 bytes. -/
def opsHavePaths : List String → Bool
  | [] => true
  | a :: rest =>
    (if isRedirOp a then
      (match rest with
       | [] => false
       | p :: _ => decide (p.length < 64))
     else true) && opsHavePaths rest

/-! ## `check_if_pipe`, `call_pipe`, `run_pipe` -/

/-- The loop of `check_if_pipe` with index `i` standing on the first cell of
the given suffix. -/
def check_if_pipe_from : Nat → List String → Nat
  | _, [] => 0
  | i, a :: rest => if a = "|" then i else check_if_pipe_from (i + 1) rest

/-- The function `check_if_pipe(args)`: the scan starts at `i = 1`; the index of the marker
is returned, and 0 when the scan meets the terminator. -/
def check_if_pipe (args : List String) : Nat := check_if_pipe_from 1 (args.drop 1)

/-- The two copy loops of `call_pipe`: `cmd1` takes the cells from index 0 up
to the first `"|"`, `cmd2` the cells after it up to the terminator.  Meeting
the terminator in the first loop is `strcmp` on NULL. -/
def call_pipe_split : List String → Option (List String × List String)
  | [] => none
  | a :: rest =>
    if a = "|" then some ([], rest)
    else
      match call_pipe_split rest with
      | none => none
      | some (cmd1, cmd2) => some (a :: cmd1, cmd2)

/-- How a process leaves a function of the interpreter. -/
inductive Ctl where
  /-- An `exec` call succeeded: the process now runs `image` with `argv`. -/
  | replaced (image : String) (argv : List String)
  /-- The process called `exit(status)`. -/
  | exited (status : Nat)
  /-- The function returned to its caller; the process keeps running the interpreter. -/
  | returned
  /-- Undefined behaviour. -/
  | fault
  deriving DecidableEq, Repr

/-- What the operating system answers. -/
structure Env where
  /-- The descriptor `open` returns for a path (negative on failure). -/
  openFd : String → Int
  /-- Whether `access(p, X_OK) == 0`. -/
  access : String → Bool
  /-- Whether `execv(p, ...)` succeeds. -/
  execv : String → Bool
  /-- Whether `execvp(file, ...)` succeeds. -/
  execvp : String → Bool
  /-- Whether `chdir(p)` succeeds. -/
  chdir : String → Bool
  /-- The value `getenv("PATH")` returns (`none` for NULL). -/
  PATH : Option String
  /-- The value `getenv("HOME")` returns (`none` for NULL). -/
  HOME : Option String

/-- The two `waitpid` calls at the end of `run_pipe`. -/
def pipeWaits (cpid1 cpid2 : Int) (bg : Bool) : List Ev :=
  [Ev.waitpid cpid1 bg, Ev.waitpid cpid2 bg]

/-- The function `run_pipe(pipe_fd, cmd1, cmd2, bg)` as seen by one process: `cpid1` is what
the first `fork` returned in this process and `cpid2` what the second returned
(the second `fork` is only reached when `cpid1` is neither -1 nor 0).
`execvp(NULL, ...)` dereferences its argument. -/
def run_pipe (env : Env) (cpid1 cpid2 : Int) (fd0 fd1 : Int)
    (cmd1 cmd2 : List String) (bg : Bool) : List Ev × Ctl :=
  if cpid1 = -1 then ([Ev.perror (some "fork")], Ctl.exited 1)
  else if cpid1 = 0 then
    match cmd1 with
    | [] => ([Ev.close fd0, Ev.dup2 fd1 1], Ctl.fault)
    | p :: _ =>
      if env.execvp p then
        ([Ev.close fd0, Ev.dup2 fd1 1, Ev.execvp (some p) cmd1], Ctl.replaced p cmd1)
      else
        ([Ev.close fd0, Ev.dup2 fd1 1, Ev.execvp (some p) cmd1, Ev.perror (some p)],
          Ctl.returned)
  else
    if cpid2 = 0 then
      match cmd2 with
      | [] => ([Ev.close fd1, Ev.dup2 fd0 0], Ctl.fault)
      | p :: _ =>
        if env.execvp p then
          ([Ev.close fd1, Ev.dup2 fd0 0, Ev.execvp (some p) cmd2], Ctl.replaced p cmd2)
        else
          ([Ev.close fd1, Ev.dup2 fd0 0, Ev.execvp (some p) cmd2, Ev.perror (some p)]
            ++ [Ev.close fd0, Ev.close fd1] ++ pipeWaits cpid1 cpid2 bg, Ctl.returned)
    else
      ([Ev.close fd0, Ev.close fd1] ++ pipeWaits cpid1 cpid2 bg, Ctl.returned)

/-- The function `call_pipe(args, bg)`: split, `pipe(pipe_fd)` (yielding `fd0`, `fd1`), then
`run_pipe`. -/
def call_pipe (env : Env) (cpid1 cpid2 : Int) (fd0 fd1 : Int)
    (args : List String) (bg : Bool) : List Ev × Ctl :=
  match call_pipe_split args with
  | none => ([], Ctl.fault)
  | some (cmd1, cmd2) => run_pipe env cpid1 cpid2 fd0 fd1 cmd1 cmd2 bg

/-! ## `runExternalCommand` -/

/-- Successive results of `strtok(s, delim)`, `strtok(NULL, delim)`, ...: the
maximal runs of characters other than the delimiter, empty runs skipped.
`cur` holds the run being read, reversed. -/
def strtokAll (d : Char) : List Char → List Char → List String
  | [], cur => if cur = [] then [] else [String.mk cur.reverse]
  | c :: cs, cur =>
    if c = d then
      (if cur = [] then strtokAll d cs [] else String.mk cur.reverse :: strtokAll d cs [])
    else strtokAll d cs (c :: cur)

/-- The directories the `strtok` loop of `runExternalCommand` visits. -/
def pathDirs (path : String) : List String := strtokAll ':' path.data []

/-- The `while (token != NULL)` loop of `runExternalCommand` over the remaining
search-path directories, followed by the failure exit.  Each round builds
`d ++ "/" ++ tok0` in `absolute_path[MAXLINE]` with `strcpy` and `strcat`,
which is undefined when the candidate and its terminator do not fit. -/
def searchPath (MAXLINE : Nat) (env : Env) (tok0 : String) (argv : List String) :
    List String → List Ev × Ctl
  | [] => ([Ev.stderr "ERROR: Command not found\n"], Ctl.exited 63)
  | d :: ds =>
    if d.length + 1 + tok0.length < MAXLINE then
      if env.access (d ++ "/" ++ tok0) then
        if env.execv (d ++ "/" ++ tok0) then
          ([Ev.access (some (d ++ "/" ++ tok0)) true, Ev.execv (some (d ++ "/" ++ tok0)) argv],
            Ctl.replaced (d ++ "/" ++ tok0) argv)
        else
          (Ev.access (some (d ++ "/" ++ tok0)) true :: Ev.execv (some (d ++ "/" ++ tok0)) argv
              :: (searchPath MAXLINE env tok0 argv ds).1,
            (searchPath MAXLINE env tok0 argv ds).2)
      else
        (Ev.access (some (d ++ "/" ++ tok0)) false :: (searchPath MAXLINE env tok0 argv ds).1,
          (searchPath MAXLINE env tok0 argv ds).2)
    else ([], Ctl.fault)

/-- The direct attempt `if (access(args[0], X_OK) == 0) execv(args[0], args);`:
what it does, and whether the process image was replaced. -/
def directAttempt (env : Env) (t : String) (argv : List String) : List Ev × Bool :=
  if env.access t then
    ([Ev.access (some t) true, Ev.execv (some t) argv], env.execv t)
  else ([Ev.access (some t) false], false)

/-- The part of the child after `ioRedirect`: the direct attempt on `args[0]`,
then the search path.  `argv` is the vector `args` as an `exec` call reads it.
`access` on a NULL `args[0]` fails; `strtok` on a NULL `PATH` and `strcat` of a
NULL `args[0]` are undefined. -/
def resolveAndExec (MAXLINE : Nat) (env : Env) (tok0 : Option String) (argv : List String) :
    List Ev × Ctl :=
  match tok0 with
  | none =>
    match env.PATH with
    | none => ([Ev.access none false], Ctl.fault)
    | some path =>
      match pathDirs path with
      | [] => ([Ev.access none false, Ev.stderr "ERROR: Command not found\n"], Ctl.exited 63)
      | _ :: _ => ([Ev.access none false], Ctl.fault)
  | some t =>
    if (directAttempt env t argv).2 then ((directAttempt env t argv).1, Ctl.replaced t argv)
    else
      match env.PATH with
      | none => ((directAttempt env t argv).1, Ctl.fault)
      | some path =>
        ((directAttempt env t argv).1 ++ (searchPath MAXLINE env t argv (pathDirs path)).1,
         (searchPath MAXLINE env t argv (pathDirs path)).2)

/-- The child branch (`cpid == 0`) of `runExternalCommand`. -/
def runExternalCommandChild (MAXLINE : Nat) (env : Env) (i0 : Nat) (args : List String) :
    List Ev × Ctl :=
  match ioRedirect env.openFd i0 args with
  | none => ([], Ctl.fault)
  | some r =>
    (r.events ++ (resolveAndExec MAXLINE env (r.cells.head?.join) r.argv).1,
      (resolveAndExec MAXLINE env (r.cells.head?.join) r.argv).2)

/-- The function `runExternalCommand(args, bg)` as seen by one process; `cpid`
is what `fork` returned in it. -/
def runExternalCommand (MAXLINE : Nat) (env : Env) (i0 : Nat) (cpid : Int)
    (args : List String) (bg : Bool) : List Ev × Ctl :=
  if cpid = 0 then runExternalCommandChild MAXLINE env i0 args
  else if cpid > 0 then ([Ev.waitpid cpid bg], Ctl.returned)
  else ([Ev.perror (some "fork")], Ctl.exited 1)

/-! ## `runCD` -/

/-- The call `memrchr(path, '/', n)`: the largest index below `n` holding `'/'`; with
`n` the length of the string this is `strrchr(path, '/')`. -/
def lastSlashBefore (p : List Char) : Nat → Option Nat
  | 0 => none
  | n + 1 => if p.get? n = some '/' then some n else lastSlashBefore p n

/-- The loop `for (runp = k; runp != path; --runp) if (runp[-1] != '/') break;`
of the C library's `dirname`: the index `runp` it ends on. -/
def skipSlashesBack (p : List Char) : Nat → Nat
  | 0 => 0
  | k + 1 => if p.get? k = some '/' then skipSlashesBack p k else k + 1

/-- The C library's `dirname(path)` (after the GNU implementation): the
contents of the caller's buffer afterwards and the string the returned pointer
designates.  When a slash is found the buffer is cut in place and the returned
pointer is the buffer itself; otherwise the buffer is left alone and the
pointer designates a static `"."`. -/
def dirname (path : String) : String × String :=
  let p := path.data
  let last_slash : Option Nat :=
    match lastSlashBefore p p.length with
    | none => none
    | some k =>
      if k ≠ 0 ∧ k + 1 = p.length then
        (if skipSlashesBack p k ≠ 0 then lastSlashBefore p (skipSlashesBack p k) else some k)
      else some k
  match last_slash with
  | none => (path, ".")
  | some k =>
    let cut := if skipSlashesBack p k = 0 then (if k = 1 then 2 else 1) else skipSlashesBack p k
    (String.mk (p.take cut), String.mk (p.take cut))

/-- What one call of `runCD` does: the tracked buffer `cwd` of the caller
afterwards, the path handed to `chdir`, whether that `chdir` succeeded, and
what was printed. -/
structure CdResult where
  cwd : String
  chdirTarget : String
  chdirOk : Bool
  out : List Ev
  deriving DecidableEq, Repr

/-- The function `runCD(args, cwd)`; `args[1]` is NULL when `args` has one entry.
`strcpy` from a NULL `getenv("HOME")` is undefined.  In the `".."` branch the
assignment `cwd = dirname(cwd)` changes only the local pointer: the caller's
buffer changes exactly as far as `dirname` cut it in place. -/
def runCD (env : Env) (args : List String) (cwd : String) : Option CdResult :=
  match args.get? 1 with
  | none =>
    match env.HOME with
    | none => none
    | some home => some { cwd := home, chdirTarget := home, chdirOk := env.chdir home, out := [] }
  | some a =>
    if a = ".." then
      some { cwd := (dirname cwd).1, chdirTarget := (dirname cwd).2,
             chdirOk := env.chdir (dirname cwd).2, out := [] }
    else
      if env.chdir (cwd ++ "/" ++ a) then
        some { cwd := cwd ++ "/" ++ a, chdirTarget := cwd ++ "/" ++ a, chdirOk := true, out := [] }
      else
        some { cwd := cwd, chdirTarget := cwd ++ "/" ++ a, chdirOk := false,
               out := [Ev.stdout "Error: Directory does not exist\n"] }

/-! ## `handleCommand` -/

/-- The C locale's `isspace`. -/
def isspace (c : Char) : Bool :=
  c = ' ' || c = '\t' || c = '\n' || c = '\x0b' || c = '\x0c' || c = '\r'

/-- Value of a run of decimal digits, most significant first. -/
def digitsValue (ds : List Char) : Nat :=
  ds.foldl (fun acc c => acc * 10 + (c.toNat - 48)) 0

/-- The call `strtoul(s, NULL, 10)` for an `unsigned long` of `bits` bits: leading
white space, an optional sign, then the longest run of digits; a value that
does not fit yields `ULONG_MAX`, and a minus sign negates modulo `2^bits`. -/
def strtoul (bits : Nat) (s : List Char) : Nat :=
  let s1 := s.dropWhile isspace
  let neg := s1.head? = some '-'
  let s2 := if s1.head? = some '-' ∨ s1.head? = some '+' then s1.drop 1 else s1
  let v := digitsValue (s2.takeWhile Char.isDigit)
  if v ≥ 2 ^ bits then 2 ^ bits - 1
  else if neg then (2 ^ bits - v) % 2 ^ bits
  else v

/-- Conversion to `unsigned int` (32 bits). -/
def toUInt (v : Nat) : Nat := v % 2 ^ 32

/-- What `printf("%d", x)` writes when handed the 32-bit pattern of the
`unsigned int` value `v`: the two's-complement reading, in decimal. -/
def printf_d (v : Nat) : String :=
  if v % 2 ^ 32 < 2 ^ 31 then toString (v % 2 ^ 32) else "-" ++ toString (2 ^ 32 - v % 2 ^ 32)

/-- The branch `handleCommand` takes, with what it does there itself. -/
inductive Dispatch where
  | call_pipe
  | exit_ (farewell : String) (status : Nat)
  | runCD
  | print_history
  /-- A history branch whose lookup found nothing: the text sent to `stderr`. -/
  | historyError (text : String)
  /-- A history branch whose lookup gave `cmd`: `parseAndExecute(cmd, args, cwd)`. -/
  | parseAndExecute (cmd : String)
  | runExternalCommand
  deriving DecidableEq, Repr

/-- The function `handleCommand(args, bg, cwd)` on a dispatched (non-empty) invocation
`tok0 :: rest`.  The history store is external: `get_last_command` is what
`get_last_command()` returns and `get_command n` what `get_command(n)` returns
(`none` for NULL).  `ulongBits` is the width of `unsigned long`. -/
def handleCommand (ulongBits : Nat) (get_last_command : Option String)
    (get_command : Nat → Option String) (tok0 : String) (rest : List String) : Dispatch :=
  if check_if_pipe (tok0 :: rest) ≠ 0 then Dispatch.call_pipe
  else if tok0 = "exit" then Dispatch.exit_ "Goodbye!\n" 0
  else if tok0 = "cd" then Dispatch.runCD
  else if tok0 = "history" then Dispatch.print_history
  else if tok0 = "!!" then
    match get_last_command with
    | none => Dispatch.historyError "ERROR: no commands in history\n"
    | some cmd => Dispatch.parseAndExecute cmd
  else if tok0.data.head? = some '!' then
    match get_command (toUInt (strtoul ulongBits (tok0.data.drop 1))) with
    | none =>
      Dispatch.historyError
        ("ERROR: " ++ printf_d (toUInt (strtoul ulongBits (tok0.data.drop 1)))
          ++ " is not in history\n")
    | some cmd => Dispatch.parseAndExecute cmd
  else Dispatch.runExternalCommand

/-! ## Reference definitions and sample systems -/

/-- The vector the specification describes for redirection removal: each
operator token and the token after it are removed, every other token is kept.
`skip` says that the previous token was an operator. -/
def specStripFrom : Bool → List String → List String
  | _, [] => []
  | true, _ :: rest => specStripFrom false rest
  | false, a :: rest =>
    if isRedirOp a then specStripFrom true rest else a :: specStripFrom false rest

/-- Redirection removal as the specification words it. -/
def specStrip (args : List String) : List String := specStripFrom false args

/-- The value of a search-path variable whose colon-separated components are
`comps`, in this order. -/
def colonJoin : List String → String
  | [] => ""
  | [d] => d
  | d :: e :: ds => d ++ ":" ++ colonJoin (e :: ds)

/-- A system in which one predicate `ok` answers `access`, `execv`, `execvp`
and `chdir` alike, and `open` succeeds (descriptor 3) exactly on the paths
satisfying `ok`. -/
def Env.uniform (ok : String → Bool) (path home : Option String) : Env :=
  { openFd := fun p => if ok p then 3 else -1
    access := ok
    execv := ok
    execvp := ok
    chdir := ok
    PATH := path
    HOME := home }

/-! ## Facts about `ioRedirect` -/

theorem captureStep_total (a : String) (next : Option String) (c : Capture)
    (h : isRedirOp a = true → ∃ p, next = some p ∧ p.length < 64) :
    ∃ c1, captureStep a next c = some c1 ∧ c1.any = (c.any || isRedirOp a) := by
  cases hop : isRedirOp a with
  | false =>
    have h' := hop
    simp only [isRedirOp, Bool.or_eq_false_iff, beq_eq_false_iff_ne, ne_eq] at h'
    obtain ⟨⟨h1, h2⟩, h3⟩ := h'
    exact ⟨c, by simp [captureStep, h1, h2, h3], by simp⟩
  | true =>
    obtain ⟨p, hn, hp⟩ := h hop
    subst hn
    by_cases h1 : a = "<"
    · subst h1
      exact ⟨_, by simp [captureStep, strcpy64, hp]; rfl, by simp [Capture.any]⟩
    · by_cases h2 : a = "1>"
      · subst h2
        exact ⟨_, by simp [captureStep, strcpy64, hp]; rfl, by simp [Capture.any]⟩
      · by_cases h3 : a = "2>"
        · subst h3
          exact ⟨_, by simp [captureStep, strcpy64, hp]; rfl, by simp [Capture.any]⟩
        · simp [isRedirOp, h1, h2, h3] at hop

theorem opsHavePaths_cons (a : String) (rest : List String)
    (h : opsHavePaths (a :: rest) = true) :
    (isRedirOp a = true → ∃ p, rest.head? = some p ∧ p.length < 64) ∧
      opsHavePaths rest = true := by
  simp only [opsHavePaths, Bool.and_eq_true] at h
  refine ⟨fun hop => ?_, h.2⟩
  have h1 := h.1
  rw [if_pos hop] at h1
  cases rest with
  | nil => simp at h1
  | cons b bs => exact ⟨b, rfl, by simpa using h1⟩

theorem opsHavePaths_drop (l : List String) :
    ∀ n : Nat, opsHavePaths l = true → opsHavePaths (l.drop n) = true := by
  induction l with
  | nil => intro n _; simp [opsHavePaths]
  | cons a rest ih =>
    intro n h
    cases n with
    | zero => simpa using h
    | succ n => simpa using ih n (opsHavePaths_cons a rest h).2

/-- Once one of the flags is set, the scan overwrites every remaining cell. -/
theorem ioRedirectScan_flagged (l : List String) :
    ∀ c : Capture, c.any = true → opsHavePaths l = true →
      ∃ cf, ioRedirectScan l c = some (List.replicate l.length none, cf) := by
  induction l with
  | nil => intro c _ _; exact ⟨c, rfl⟩
  | cons a rest ih =>
    intro c hc h
    obtain ⟨hnext, hrest⟩ := opsHavePaths_cons a rest h
    obtain ⟨c1, hstep, hany⟩ := captureStep_total a rest.head? c hnext
    have hc1 : c1.any = true := by rw [hany, hc]; rfl
    obtain ⟨cf, hscan⟩ := ih c1 hc1 hrest
    exact ⟨cf, by simp [ioRedirectScan, hstep, hscan, hc1, List.replicate_succ]⟩

/-- With no flag set, the scan keeps the cells up to the first operator and
overwrites all the cells from that operator on. -/
theorem ioRedirectScan_clear (l : List String) :
    ∀ c : Capture, c.any = false → opsHavePaths l = true →
      ∃ cf, ioRedirectScan l c =
        some ((l.takeWhile (fun t => !isRedirOp t)).map some
          ++ List.replicate (l.length - (l.takeWhile (fun t => !isRedirOp t)).length) none, cf) := by
  induction l with
  | nil => intro c _ _; exact ⟨c, rfl⟩
  | cons a rest ih =>
    intro c hc h
    obtain ⟨hnext, hrest⟩ := opsHavePaths_cons a rest h
    obtain ⟨c1, hstep, hany⟩ := captureStep_total a rest.head? c hnext
    cases hop : isRedirOp a with
    | true =>
      have hc1 : c1.any = true := by rw [hany, hop]; simp
      obtain ⟨cf, hscan⟩ := ioRedirectScan_flagged rest c1 hc1 hrest
      exact ⟨cf, by simp [ioRedirectScan, hstep, hscan, hc1, hop, List.replicate_succ]⟩
    | false =>
      have hc1 : c1.any = false := by rw [hany, hop, hc]; rfl
      obtain ⟨cf, hscan⟩ := ih c1 hc1 hrest
      exact ⟨cf, by simp [ioRedirectScan, hstep, hscan, hc1, hop]⟩

theorem nullTerminated_replicate_none (n : Nat) :
    nullTerminated (List.replicate n (none : Option String)) = [] := by
  cases n <;> rfl

theorem nullTerminated_map_some_append (xs : List String) (n : Nat) :
    nullTerminated (xs.map some ++ List.replicate n none) = xs := by
  induction xs with
  | nil => simpa using nullTerminated_replicate_none n
  | cons x xs ih => simp [nullTerminated, ih]

/-- The complete effect of `ioRedirect` on the argument array when the scan
starts at index 0 and every operator has a path that fits. -/
theorem ioRedirect_zero (openFd : String → Int) (args : List String)
    (h : opsHavePaths args = true) :
    ∃ r, ioRedirect openFd 0 args = some r ∧
      r.cells = (args.takeWhile (fun t => !isRedirOp t)).map some
        ++ List.replicate (args.length - (args.takeWhile (fun t => !isRedirOp t)).length) none ∧
      r.argv = args.takeWhile (fun t => !isRedirOp t) := by
  obtain ⟨cf, hscan⟩ := ioRedirectScan_clear args Capture.init rfl h
  refine ⟨_, by simp [ioRedirect, hscan]; rfl, by simp, ?_⟩
  simp [Redirected.argv, nullTerminated_map_some_append]

/-- Wherever inside the array the scan starts, `ioRedirect` returns and leaves
token 0 in place, provided every operator has a path that fits and, for a scan
from index 0, token 0 is not an operator. -/
theorem ioRedirect_returns (openFd : String → Int) (i0 : Nat) (tok0 : String)
    (rest : List String)
    (hi0 : i0 ≤ (tok0 :: rest).length)
    (h0 : i0 = 0 → isRedirOp tok0 = false)
    (hops : opsHavePaths (tok0 :: rest) = true) :
    ∃ r, ioRedirect openFd i0 (tok0 :: rest) = some r ∧ r.cells.head? = some (some tok0) := by
  cases i0 with
  | zero =>
    obtain ⟨r, hr, hcells, _⟩ := ioRedirect_zero openFd (tok0 :: rest) hops
    refine ⟨r, hr, ?_⟩
    rw [hcells]
    simp [List.takeWhile, h0 rfl]
  | succ n =>
    have hsuf : opsHavePaths ((tok0 :: rest).drop (n + 1)) = true :=
      opsHavePaths_drop (tok0 :: rest) (n + 1) hops
    by_cases hany : (Capture.init).any = true
    · simp [Capture.init, Capture.any] at hany
    · have hany' : (Capture.init).any = false := by simpa using hany
      obtain ⟨cf, hscan⟩ :=
        ioRedirectScan_clear ((tok0 :: rest).drop (n + 1)) Capture.init hany' hsuf
      have hr : ioRedirect openFd (n + 1) (tok0 :: rest) =
          some { cells := ((tok0 :: rest).take (n + 1)).map some
                   ++ ((((tok0 :: rest).drop (n + 1)).takeWhile (fun t => !isRedirOp t)).map some
                     ++ List.replicate
                        (((tok0 :: rest).drop (n + 1)).length
                          - (((tok0 :: rest).drop (n + 1)).takeWhile
                              (fun t => !isRedirOp t)).length) none)
                 capture := cf
                 events := rewire openFd cf } := by
        simp only [ioRedirect, if_pos hi0, hscan]
      exact ⟨_, hr, by simp⟩

/-! ## Facts about resolution in `runExternalCommand` -/

theorem strtokAll_append (d : List Char) (hd : ':' ∉ d) :
    ∀ (tl cur : List Char), strtokAll ':' (d ++ tl) cur = strtokAll ':' tl (d.reverse ++ cur) := by
  induction d with
  | nil => intro tl cur; rfl
  | cons c cs ih =>
    intro tl cur
    have hc : c ≠ ':' := fun e => hd (by simp [e])
    have hcs : ':' ∉ cs := fun m => hd (List.mem_cons_of_mem c m)
    simp [strtokAll, hc, ih hcs]

/-- The `strtok` loop visits the non-empty colon-separated components of the
search-path value, in their order. -/
theorem pathDirs_colonJoin (comps : List String) (h : ∀ d ∈ comps, ':' ∉ d.data) :
    pathDirs (colonJoin comps) = comps.filter (fun d => d ≠ "") := by
  induction comps with
  | nil => rfl
  | cons d ds ih =>
    have hd : ':' ∉ d.data := h d (List.mem_cons_self d ds)
    have hne : (d ≠ "") ↔ d.data ≠ [] := by
      constructor
      · intro hn e; exact hn (String.ext e)
      · intro hn e; exact hn (by rw [e])
    cases ds with
    | nil =>
      have := strtokAll_append d.data hd [] []
      simp only [List.append_nil] at this
      by_cases he : d.data = []
      · have hd0 : d = "" := String.ext he
        subst hd0
        rfl
      · simp [pathDirs, colonJoin, this, strtokAll, he, hne.mpr he]
    | cons e es =>
      have ih' := ih (fun x hx => h x (List.mem_cons_of_mem d hx))
      have happ := strtokAll_append d.data hd (':' :: (colonJoin (e :: es)).data) []
      simp only [List.append_nil] at happ
      have hdata : (colonJoin (d :: e :: es)).data
          = d.data ++ ':' :: (colonJoin (e :: es)).data := by
        simp [colonJoin, String.data_append]
      unfold pathDirs at ih' ⊢
      rw [hdata, happ]
      by_cases he : d.data = []
      · have hd0 : d = "" := String.ext he
        subst hd0
        simpa [strtokAll] using ih'
      · have hdn : d ≠ "" := hne.mpr he
        simp [strtokAll, he, ih', hdn]

/-- The search loop when some candidate passes `access`: the candidates before
the first such one are tested and fail, in order, then that one is tested and
executed. -/
theorem searchPath_found (MAXLINE : Nat) (env : Env)
    (hexec : ∀ p, env.access p = true → env.execv p = true)
    (tok0 : String) (argv : List String) (dirs : List String)
    (hfit : ∀ d ∈ dirs, d.length + 1 + tok0.length < MAXLINE) (d : String)
    (hd : dirs.find? (fun d => env.access (d ++ "/" ++ tok0)) = some d) :
    searchPath MAXLINE env tok0 argv dirs =
      ((dirs.takeWhile (fun e => !env.access (e ++ "/" ++ tok0))).map
          (fun e => Ev.access (some (e ++ "/" ++ tok0)) false)
        ++ [Ev.access (some (d ++ "/" ++ tok0)) true, Ev.execv (some (d ++ "/" ++ tok0)) argv],
       Ctl.replaced (d ++ "/" ++ tok0) argv) := by
  induction dirs with
  | nil => simp at hd
  | cons e es ih =>
    have hfe : e.length + 1 + tok0.length < MAXLINE := hfit e (List.mem_cons_self e es)
    cases ha : env.access (e ++ "/" ++ tok0) with
    | true =>
      have he : e = d := by simpa [List.find?, ha] using hd
      subst he
      simp [searchPath, hfe, ha, hexec _ ha, List.takeWhile]
    | false =>
      have hd' : es.find? (fun d => env.access (d ++ "/" ++ tok0)) = some d := by
        simpa [List.find?, ha] using hd
      have := ih (fun x hx => hfit x (List.mem_cons_of_mem e hx)) hd'
      simp [searchPath, hfe, ha, List.takeWhile, this]

/-- The search loop when no candidate passes `access`: every candidate is
tested, in order, then the message is written and the child exits with 63. -/
theorem searchPath_none (MAXLINE : Nat) (env : Env)
    (tok0 : String) (argv : List String) (dirs : List String)
    (hfit : ∀ d ∈ dirs, d.length + 1 + tok0.length < MAXLINE)
    (hno : ∀ d ∈ dirs, env.access (d ++ "/" ++ tok0) = false) :
    searchPath MAXLINE env tok0 argv dirs =
      (dirs.map (fun e => Ev.access (some (e ++ "/" ++ tok0)) false)
        ++ [Ev.stderr "ERROR: Command not found\n"], Ctl.exited 63) := by
  induction dirs with
  | nil => rfl
  | cons e es ih =>
    have hfe : e.length + 1 + tok0.length < MAXLINE := hfit e (List.mem_cons_self e es)
    have ha : env.access (e ++ "/" ++ tok0) = false := hno e (List.mem_cons_self e es)
    have := ih (fun x hx => hfit x (List.mem_cons_of_mem e hx))
      (fun x hx => hno x (List.mem_cons_of_mem e hx))
    simp [searchPath, hfe, ha, this]

/-- Every `exec` call of the search loop is handed the vector `argv`. -/
theorem searchPath_argv (MAXLINE : Nat) (env : Env) (tok0 : String) (argv : List String)
    (dirs : List String) (image : String) (argv1 : List String) :
    (searchPath MAXLINE env tok0 argv dirs).2 = Ctl.replaced image argv1 → argv1 = argv := by
  induction dirs with
  | nil => intro h; simp [searchPath] at h
  | cons d ds ih =>
    intro h
    by_cases hf : d.length + 1 + tok0.length < MAXLINE
    · cases ha : env.access (d ++ "/" ++ tok0) with
      | true =>
        cases hx : env.execv (d ++ "/" ++ tok0) with
        | true => simp [searchPath, hf, ha, hx] at h; exact h.2.symm
        | false => simp only [searchPath, hf, ha, hx, if_true] at h; exact ih (by simpa using h)
      | false => simp only [searchPath, hf, ha, if_true] at h; exact ih (by simpa using h)
    · simp [searchPath, hf] at h

/-- Every successful `exec` of `resolveAndExec` is handed the vector `argv`. -/
theorem resolveAndExec_argv (MAXLINE : Nat) (env : Env) (tok0 : Option String)
    (argv : List String) (image : String) (argv1 : List String)
    (h : (resolveAndExec MAXLINE env tok0 argv).2 = Ctl.replaced image argv1) : argv1 = argv := by
  unfold resolveAndExec at h
  cases tok0 with
  | none =>
    cases hp : env.PATH with
    | none => simp [hp] at h
    | some path =>
      cases hd : pathDirs path <;> simp [hp, hd] at h
  | some t =>
    by_cases hd : (directAttempt env t argv).2 = true
    · simp [hd] at h; exact h.2.symm
    · cases hp : env.PATH with
      | none => simp [hd, hp] at h
      | some path =>
        simp only [hd, hp] at h
        exact searchPath_argv MAXLINE env t argv (pathDirs path) image argv1 (by simpa using h)

/-- On the `runExternalCommand` path (scan started at index 0, every operator
followed by a path that fits) a successful `execv` receives exactly the tokens
before the first redirection operator, hence no operator token. -/
theorem runExternalCommandChild_argv (MAXLINE : Nat) (env : Env) (args : List String)
    (h : opsHavePaths args = true) (image : String) (argv : List String)
    (hx : (runExternalCommandChild MAXLINE env 0 args).2 = Ctl.replaced image argv) :
    argv = args.takeWhile (fun t => !isRedirOp t) ∧ ∀ t ∈ argv, isRedirOp t = false := by
  obtain ⟨r, hr, _, hargv⟩ := ioRedirect_zero env.openFd args h
  simp only [runExternalCommandChild, hr] at hx
  have e := resolveAndExec_argv MAXLINE env _ _ image argv hx
  rw [hargv] at e
  refine ⟨e, fun t ht => ?_⟩
  rw [e] at ht
  simpa using List.mem_takeWhile_imp ht

/-- The child of `runExternalCommand` once `ioRedirect` has returned with a
non-NULL `args[0]` and `PATH` is set. -/
theorem runExternalCommandChild_eq (MAXLINE : Nat) (env : Env) (i0 : Nat) (args : List String)
    (path tok0 : String) (r : Redirected)
    (hpath : env.PATH = some path)
    (hr : ioRedirect env.openFd i0 args = some r)
    (h0 : r.cells.head? = some (some tok0)) :
    runExternalCommandChild MAXLINE env i0 args =
      if env.access tok0 = true ∧ env.execv tok0 = true then
        (r.events ++ [Ev.access (some tok0) true, Ev.execv (some tok0) r.argv],
          Ctl.replaced tok0 r.argv)
      else
        (r.events ++ ((directAttempt env tok0 r.argv).1
            ++ (searchPath MAXLINE env tok0 r.argv (pathDirs path)).1),
          (searchPath MAXLINE env tok0 r.argv (pathDirs path)).2) := by
  have hj : r.cells.head?.join = some tok0 := by rw [h0]; rfl
  simp only [runExternalCommandChild, hr, hj, resolveAndExec, hpath]
  cases ha : env.access tok0 <;> cases hx : env.execv tok0 <;> simp [directAttempt, ha, hx]

/-! ## Facts about `check_if_pipe` and `call_pipe` -/

theorem check_if_pipe_from_eq (l : List String) :
    ∀ i : Nat, check_if_pipe_from i l =
      if "|" ∈ l then i + (l.takeWhile (fun t => t ≠ "|")).length else 0 := by
  induction l with
  | nil => intro i; simp [check_if_pipe_from]
  | cons a rest ih =>
    intro i
    by_cases h : a = "|"
    · subst h; simp [check_if_pipe_from]
    · have h' : ¬ ("|" = a) := fun e => h e.symm
      simp only [check_if_pipe_from, if_neg h, ih (i + 1), List.mem_cons, h', false_or]
      by_cases hm : "|" ∈ rest
      · simp [hm, List.takeWhile, h]; omega
      · simp [hm]

theorem check_if_pipe_ne_zero_iff (args : List String) :
    check_if_pipe args ≠ 0 ↔ "|" ∈ args.drop 1 := by
  unfold check_if_pipe
  rw [check_if_pipe_from_eq]
  by_cases hm : "|" ∈ args.drop 1
  · simp [hm]
  · simp [hm]

theorem call_pipe_split_eq (l : List String) (h : "|" ∈ l) :
    call_pipe_split l =
      some (l.takeWhile (fun t => t ≠ "|"), (l.dropWhile (fun t => t ≠ "|")).drop 1) := by
  induction l with
  | nil => simp at h
  | cons a rest ih =>
    by_cases ha : a = "|"
    · subst ha; simp [call_pipe_split, List.takeWhile, List.dropWhile]
    · have h' : "|" ∈ rest := by
        rcases List.mem_cons.mp h with e | m
        · exact absurd e.symm ha
        · exact m
      simp [call_pipe_split, ha, ih h', List.takeWhile, List.dropWhile]

theorem takeWhile_append_marker (l : List String) (h : "|" ∈ l) :
    l.takeWhile (fun t => t ≠ "|") ++ "|" :: (l.dropWhile (fun t => t ≠ "|")).drop 1 = l := by
  induction l with
  | nil => simp at h
  | cons a rest ih =>
    by_cases ha : a = "|"
    · subst ha; simp [List.takeWhile, List.dropWhile]
    · have h' : "|" ∈ rest := by
        rcases List.mem_cons.mp h with e | m
        · exact absurd e.symm ha
        · exact m
      simpa [List.takeWhile, List.dropWhile, ha] using ih h'

theorem marker_not_mem_takeWhile (l : List String) :
    "|" ∉ l.takeWhile (fun t => t ≠ "|") := by
  intro hm
  have := List.mem_takeWhile_imp hm
  simp at this

/-- Whatever `execvp` answers, no process leaves `run_pipe` through `exit`
once the first `fork` has succeeded: a child whose `execvp` fails carries on. -/
theorem run_pipe_never_exits (env : Env) (cpid1 cpid2 fd0 fd1 : Int)
    (cmd1 cmd2 : List String) (bg : Bool) (h : cpid1 ≠ -1) (n : Nat) :
    (run_pipe env cpid1 cpid2 fd0 fd1 cmd1 cmd2 bg).2 ≠ Ctl.exited n := by
  by_cases h1 : cpid1 = 0 <;> by_cases h2 : cpid2 = 0 <;>
    cases cmd1 with
    | nil => cases cmd2 with
      | nil => simp [run_pipe, h, h1, h2]
      | cons q qs => by_cases hq : env.execvp q = true <;> simp [run_pipe, h, h1, h2, hq]
    | cons p ps => cases cmd2 with
      | nil => by_cases hp : env.execvp p = true <;> simp [run_pipe, h, h1, h2, hp]
      | cons q qs =>
        by_cases hp : env.execvp p = true <;> by_cases hq : env.execvp q = true <;>
          simp [run_pipe, h, h1, h2, hp, hq]

/-- The vectors `run_pipe` hands to `execvp` are `cmd1` and `cmd2` as given:
nothing is removed from them. -/
theorem run_pipe_argv (env : Env) (cpid1 cpid2 fd0 fd1 : Int)
    (cmd1 cmd2 : List String) (bg : Bool) (image : String) (argv : List String)
    (h : (run_pipe env cpid1 cpid2 fd0 fd1 cmd1 cmd2 bg).2 = Ctl.replaced image argv) :
    argv = cmd1 ∨ argv = cmd2 := by
  by_cases h0 : cpid1 = -1
  · simp [run_pipe, h0] at h
  · by_cases h1 : cpid1 = 0
    · cases cmd1 with
      | nil => simp [run_pipe, h0, h1] at h
      | cons p ps =>
        by_cases hp : env.execvp p = true
        · simp [run_pipe, h1, hp] at h; exact Or.inl h.2.symm
        · simp [run_pipe, h1, hp] at h
    · by_cases h2 : cpid2 = 0
      · cases cmd2 with
        | nil => simp [run_pipe, h0, h1, h2] at h
        | cons q qs =>
          by_cases hq : env.execvp q = true
          · simp [run_pipe, h0, h1, h2, hq] at h; exact Or.inr h.2.symm
          · simp [run_pipe, h0, h1, h2, hq] at h
      · simp [run_pipe, h0, h1, h2] at h

/-! ## Facts about `runCD` -/

/-- With no argument and `HOME` set, the tracked path becomes the value of
`HOME`, whatever `chdir` answers. -/
theorem runCD_no_argument (env : Env) (tok0 home cwd : String) (h : env.HOME = some home) :
    runCD env [tok0] cwd =
      some { cwd := home, chdirTarget := home, chdirOk := env.chdir home, out := [] } := by
  simp [runCD, h]

/-- With the argument `".."` the tracked buffer holds what `dirname` left in
it, whatever `chdir` answers. -/
theorem runCD_parent (env : Env) (tok0 cwd : String) (more : List String) :
    runCD env (tok0 :: ".." :: more) cwd =
      some { cwd := (dirname cwd).1, chdirTarget := (dirname cwd).2,
             chdirOk := env.chdir (dirname cwd).2, out := [] } := by
  simp [runCD]

/-- With any other argument `a`, the tracked path becomes `cwd ++ "/" ++ a`
when `chdir` to it succeeds, and is left alone, with an error printed, when it
fails. -/
theorem runCD_argument (env : Env) (tok0 a cwd : String) (more : List String) (h : a ≠ "..") :
    runCD env (tok0 :: a :: more) cwd =
      if env.chdir (cwd ++ "/" ++ a) then
        some { cwd := cwd ++ "/" ++ a, chdirTarget := cwd ++ "/" ++ a, chdirOk := true, out := [] }
      else
        some { cwd := cwd, chdirTarget := cwd ++ "/" ++ a, chdirOk := false,
               out := [Ev.stdout "Error: Directory does not exist\n"] } := by
  simp [runCD, h]

/-! ## The claims -/

/-- C1, the code at the failing input `ls | cat 1> out.txt`: every operator is
followed by a path, the invocation is routed to the pipeline path, and in the
second child `execvp` replaces the image with `cat` and the vector
`cat 1> out.txt`: `run_pipe` never calls `ioRedirect`, so the operator token
and the path token reach the launched program. -/
theorem C1_pipe_stage_keeps_redirection_tokens :
    opsHavePaths ["ls", "|", "cat", "1>", "out.txt"] = true ∧
    check_if_pipe ["ls", "|", "cat", "1>", "out.txt"] ≠ 0 ∧
    (call_pipe (Env.uniform (fun _ => true) (some "/bin") (some "/root")) 100 0 3 4
        ["ls", "|", "cat", "1>", "out.txt"] false).2
      = Ctl.replaced "cat" ["cat", "1>", "out.txt"] ∧
    isRedirOp "1>" = true := by
  decide

/-- C2, counterexample: the invocation `| ls` contains the pipe marker, yet
`check_if_pipe` returns 0 (its scan starts at index 1) and `handleCommand`
takes the external-command branch. -/
theorem C2_marker_at_index_zero_not_routed :
    "|" ∈ ["|", "ls"] ∧ check_if_pipe ["|", "ls"] = 0 ∧
    handleCommand 64 none (fun _ => none) "|" ["ls"] = Dispatch.runExternalCommand := by
  decide

/-- C2, amended: `check_if_pipe` is non-zero exactly when some token at index
1 or later equals `"|"`, it then returns the index of the first such token,
and `handleCommand` takes the pipeline branch exactly in that case, whatever
token 0 is. -/
theorem C2_pipe_routing (ulongBits : Nat) (get_last_command : Option String)
    (get_command : Nat → Option String) (tok0 : String) (rest : List String) :
    (check_if_pipe (tok0 :: rest) ≠ 0 ↔ "|" ∈ rest) ∧
    (check_if_pipe (tok0 :: rest) =
      if "|" ∈ rest then 1 + (rest.takeWhile (fun t => t ≠ "|")).length else 0) ∧
    (handleCommand ulongBits get_last_command get_command tok0 rest = Dispatch.call_pipe
      ↔ "|" ∈ rest) := by
  have h1 : check_if_pipe (tok0 :: rest) ≠ 0 ↔ "|" ∈ rest := by
    simpa using check_if_pipe_ne_zero_iff (tok0 :: rest)
  refine ⟨h1, ?_, ?_⟩
  · simp [check_if_pipe, check_if_pipe_from_eq]
  · rw [← h1]
    unfold handleCommand
    by_cases hc : check_if_pipe (tok0 :: rest) ≠ 0
    · simp [hc]
    · simp only [hc, if_false, false_iff]
      split_ifs <;> (try split) <;> simp

/-- C6, counterexample: in `cat < in -n` every operator has a path; the claim
predicts the vector `cat -n`, but `ioRedirect` leaves `cat`.  And with a path
token of 64 bytes the `strcpy` into `input[64]` does not fit, so no vector is
guaranteed at all. -/
theorem C6_tokens_after_pair_dropped :
    opsHavePaths ["cat", "<", "in", "-n"] = true ∧
    specStrip ["cat", "<", "in", "-n"] = ["cat", "-n"] ∧
    (ioRedirect (fun _ => 3) 0 ["cat", "<", "in", "-n"]).map Redirected.argv = some ["cat"] ∧
    (ioRedirect (fun _ => 3) 0 ["cat", "<", "in", "-n"]).map Redirected.argv
      ≠ some (specStrip ["cat", "<", "in", "-n"]) ∧
    "aaaaaaaaaaaaaaaaaaaaaaaaaaaaaaaaaaaaaaaaaaaaaaaaaaaaaaaaaaaaaaaa".length = 64 ∧
    ioRedirect (fun _ => 3) 0 ["cat", "<", "aaaaaaaaaaaaaaaaaaaaaaaaaaaaaaaaaaaaaaaaaaaaaaaaaaaaaaaaaaaaaaaa"] = none := by
  decide

/-- C6, amended: when every redirection operator is immediately followed by a
path token of at most 63 bytes and the scan starts at index 0, `ioRedirect`
returns, every cell from the first operator on is NULL, and the vector left
for the `exec` call is exactly the tokens before the first operator, in their
original order. -/
theorem C6_ioRedirect_keeps_prefix (openFd : String → Int) (args : List String)
    (h : opsHavePaths args = true) :
    ∃ r, ioRedirect openFd 0 args = some r ∧
      r.cells = (args.takeWhile (fun t => !isRedirOp t)).map some
        ++ List.replicate (args.length - (args.takeWhile (fun t => !isRedirOp t)).length) none ∧
      r.argv = args.takeWhile (fun t => !isRedirOp t) :=
  ioRedirect_zero openFd args h

/-- C6, amended, at `sort -r < in.txt 1> out.txt -u`. -/
theorem C6_ioRedirect_keeps_prefix_witness :
    opsHavePaths ["sort", "-r", "<", "in.txt", "1>", "out.txt", "-u"] = true ∧
    ∃ r, ioRedirect (fun _ => 3) 0 ["sort", "-r", "<", "in.txt", "1>", "out.txt", "-u"] = some r ∧
      r.cells = [some "sort", some "-r", none, none, none, none, none] ∧
      r.argv = ["sort", "-r"] := by
  refine ⟨by decide, ?_⟩
  obtain ⟨r, h1, h2, h3⟩ :=
    C6_ioRedirect_keeps_prefix (fun _ => 3)
      ["sort", "-r", "<", "in.txt", "1>", "out.txt", "-u"] (by decide)
  refine ⟨r, h1, ?_, ?_⟩
  · rw [h2]; decide
  · rw [h3]; decide

/-- C10, counterexample: `a | b | c` is routed to the pipeline path and
`call_pipe` splits it into `a` and `b | c`, so the second invocation contains
the marker; and in `| a | b` the marker `check_if_pipe` locates is at index 2
while `call_pipe` splits at index 0. -/
theorem C10_second_half_keeps_markers :
    check_if_pipe ["a", "|", "b", "|", "c"] ≠ 0 ∧
    call_pipe_split ["a", "|", "b", "|", "c"] = some (["a"], ["b", "|", "c"]) ∧
    "|" ∈ ["b", "|", "c"] ∧
    check_if_pipe ["|", "a", "|", "b"] = 2 ∧
    call_pipe_split ["|", "a", "|", "b"] = some ([], ["a", "|", "b"]) := by
  decide

/-- C10, amended: for every invocation routed to the pipeline path,
`call_pipe` produces `cmd1` and `cmd2` with `cmd1` free of the marker,
`cmd1 ++ "|" :: cmd2` the original sequence (so `cmd1` is the tokens before
the first marker and `cmd2` all the tokens after it), and, when token 0 is not
itself the marker, the split is at the index `check_if_pipe` returned. -/
theorem C10_call_pipe_partition (args : List String) (h : check_if_pipe args ≠ 0) :
    ∃ cmd1 cmd2, call_pipe_split args = some (cmd1, cmd2) ∧
      "|" ∉ cmd1 ∧ cmd1 ++ "|" :: cmd2 = args ∧
      (args.head? ≠ some "|" →
        cmd1 = args.take (check_if_pipe args) ∧ cmd2 = args.drop (check_if_pipe args + 1)) := by
  have hm1 : "|" ∈ args.drop 1 := (check_if_pipe_ne_zero_iff args).mp h
  have hm : "|" ∈ args := List.mem_of_mem_drop hm1
  refine ⟨_, _, call_pipe_split_eq args hm, marker_not_mem_takeWhile args,
    takeWhile_append_marker args hm, ?_⟩
  intro hhead
  cases args with
  | nil => simp at hm
  | cons a rest =>
    have ha : a ≠ "|" := by simpa using hhead
    have hr : "|" ∈ rest := by simpa using hm1
    have hk : check_if_pipe (a :: rest) = ((a :: rest).takeWhile (fun t => t ≠ "|")).length := by
      simp [check_if_pipe, check_if_pipe_from_eq, hr, List.takeWhile, ha]; omega
    have hdec := takeWhile_append_marker (a :: rest) (List.mem_cons_of_mem a hr)
    constructor
    · rw [hk]
      have := @List.take_left _ ((a :: rest).takeWhile (fun t => t ≠ "|"))
        ("|" :: ((a :: rest).dropWhile (fun t => t ≠ "|")).drop 1)
      rw [hdec] at this
      exact this.symm
    · rw [hk]
      have := @List.drop_left _ ((a :: rest).takeWhile (fun t => t ≠ "|") ++ ["|"])
        (((a :: rest).dropWhile (fun t => t ≠ "|")).drop 1)
      simp only [List.append_assoc, List.singleton_append, List.length_append,
        List.length_singleton] at this
      rw [hdec] at this
      exact this.symm

/-- C10, amended, at `ls -l | wc`. -/
theorem C10_call_pipe_partition_witness :
    check_if_pipe ["ls", "-l", "|", "wc"] ≠ 0 ∧
    ∃ cmd1 cmd2, call_pipe_split ["ls", "-l", "|", "wc"] = some (cmd1, cmd2) ∧
      "|" ∉ cmd1 ∧ cmd1 ++ "|" :: cmd2 = ["ls", "-l", "|", "wc"] ∧
      (["ls", "-l", "|", "wc"].head? ≠ some "|" →
        cmd1 = ["ls", "-l", "|", "wc"].take (check_if_pipe ["ls", "-l", "|", "wc"]) ∧
        cmd2 = ["ls", "-l", "|", "wc"].drop (check_if_pipe ["ls", "-l", "|", "wc"] + 1)) :=
  ⟨by decide, C10_call_pipe_partition ["ls", "-l", "|", "wc"] (by decide)⟩

/-- C3, the code at the failing input `< in` (scan from index 0), with
`PATH=/usr/bin:/bin` and nothing executable: `ioRedirect` overwrites token 0
with NULL, `access(NULL)` fails, and the first round of the search loop
appends the NULL `args[0]` with `strcat`; the child faults instead of writing
`ERROR: Command not found` and exiting with 63.  At `ls <` the child faults
inside `ioRedirect`.  For contrast, at `nosuch` the child tests token 0 and
both candidates, writes the message and exits with 63. -/
theorem C3_no_program_token_faults :
    (∀ p, (Env.uniform (fun p => p == "in") (some "/usr/bin:/bin") none).access p = true →
      p = "in") ∧
    (∀ MAXLINE : Nat,
      runExternalCommandChild MAXLINE
          (Env.uniform (fun p => p == "in") (some "/usr/bin:/bin") none) 0 ["<", "in"]
        = ([Ev.open_ "in" "O_RDONLY" 3, Ev.dup2 3 0, Ev.close 3, Ev.access none false],
           Ctl.fault)) ∧
    (∀ MAXLINE : Nat,
      runExternalCommandChild MAXLINE
          (Env.uniform (fun p => p == "in") (some "/usr/bin:/bin") none) 0 ["ls", "<"]
        = ([], Ctl.fault)) ∧
    runExternalCommandChild 1024
        (Env.uniform (fun p => p == "in") (some "/usr/bin:/bin") none) 0 ["nosuch"]
      = ([Ev.access (some "nosuch") false, Ev.access (some "/usr/bin/nosuch") false,
          Ev.access (some "/bin/nosuch") false, Ev.stderr "ERROR: Command not found\n"],
         Ctl.exited 63) := by
  refine ⟨?_, ?_, ?_, ?_⟩
  · intro p hp
    simpa [Env.uniform] using hp
  · intro MAXLINE
    have hr : ioRedirect (Env.uniform (fun p => p == "in") (some "/usr/bin:/bin") none).openFd 0
        ["<", "in"] = some { cells := [none, none], capture := ⟨some "in", none, none⟩,
                             events := [Ev.open_ "in" "O_RDONLY" 3, Ev.dup2 3 0, Ev.close 3] } := by
      decide
    unfold runExternalCommandChild
    rw [hr]
    rfl
  · intro MAXLINE
    have hr : ioRedirect (Env.uniform (fun p => p == "in") (some "/usr/bin:/bin") none).openFd 0
        ["ls", "<"] = none := by
      decide
    unfold runExternalCommandChild
    rw [hr]
  · decide

/-- C9, counterexample: with `PATH=/usr` and only `/usr/bin/ls` executable,
token 0 `bin/ls` contains `"/"`, yet the candidate `/usr/bin/ls` is tested and
executed; and with `ls` executable in the current directory, the bare name
`ls` is executed as given, not as a search-path candidate. -/
theorem C9_no_separator_test :
    '/' ∈ "bin/ls".data ∧
    runExternalCommandChild 1024 (Env.uniform (fun p => p == "/usr/bin/ls") (some "/usr") none)
        0 ["bin/ls"]
      = ([Ev.access (some "bin/ls") false, Ev.access (some "/usr/bin/ls") true,
          Ev.execv (some "/usr/bin/ls") ["bin/ls"]],
         Ctl.replaced "/usr/bin/ls" ["bin/ls"]) ∧
    '/' ∉ "ls".data ∧
    runExternalCommandChild 1024 (Env.uniform (fun p => p == "ls") (some "/usr") none) 0 ["ls"]
      = ([Ev.access (some "ls") true, Ev.execv (some "ls") ["ls"]], Ctl.replaced "ls" ["ls"]) := by
  decide

/-- C9, amended.  Setting: `PATH` is set to the colon-separated components
`comps`, whose non-empty ones, in order, are the directories `dirs`; `access`
and `execv` agree on which paths are executable; the scan of `ioRedirect`
starts at an index `i0` inside the argument array, and token 0 is not a
redirection operator when `i0 = 0`; every redirection operator is followed by
a path token of at most 63 bytes; every candidate `d ++ "/" ++ tok0` fits
`absolute_path[MAXLINE]`.  Then `ioRedirect` returns, and whether or not token
0 contains `"/"`: an executable token 0 is tested and executed as given and no
candidate is tested; otherwise token 0 is tested, then the candidates are
tested one by one in search-path order up to the first executable one, which
is the image executed; and when no candidate is executable all of them are
tested, `ERROR: Command not found` is written and the child exits with 63. -/
theorem C9_search_path_use (MAXLINE : Nat) (env : Env) (i0 : Nat) (tok0 : String)
    (rest comps dirs : List String)
    (hpath : env.PATH = some (colonJoin comps))
    (hcomps : ∀ d ∈ comps, ':' ∉ d.data)
    (hdirs : dirs = comps.filter (fun d => d ≠ ""))
    (hexec : ∀ p, env.access p = true → env.execv p = true)
    (hi0 : i0 ≤ (tok0 :: rest).length)
    (h0 : i0 = 0 → isRedirOp tok0 = false)
    (hops : opsHavePaths (tok0 :: rest) = true)
    (hfit : ∀ d ∈ dirs, d.length + 1 + tok0.length < MAXLINE) :
    ∃ r, ioRedirect env.openFd i0 (tok0 :: rest) = some r ∧
      (env.access tok0 = true →
        runExternalCommandChild MAXLINE env i0 (tok0 :: rest) =
          (r.events ++ [Ev.access (some tok0) true, Ev.execv (some tok0) r.argv],
            Ctl.replaced tok0 r.argv)) ∧
      (env.access tok0 = false → ∀ d : String,
        dirs.find? (fun e => env.access (e ++ "/" ++ tok0)) = some d →
        runExternalCommandChild MAXLINE env i0 (tok0 :: rest) =
          (r.events ++ Ev.access (some tok0) false ::
            ((dirs.takeWhile (fun e => !env.access (e ++ "/" ++ tok0))).map
                (fun e => Ev.access (some (e ++ "/" ++ tok0)) false)
              ++ [Ev.access (some (d ++ "/" ++ tok0)) true,
                  Ev.execv (some (d ++ "/" ++ tok0)) r.argv]),
            Ctl.replaced (d ++ "/" ++ tok0) r.argv)) ∧
      (env.access tok0 = false → (∀ d ∈ dirs, env.access (d ++ "/" ++ tok0) = false) →
        runExternalCommandChild MAXLINE env i0 (tok0 :: rest) =
          (r.events ++ Ev.access (some tok0) false ::
            (dirs.map (fun e => Ev.access (some (e ++ "/" ++ tok0)) false)
              ++ [Ev.stderr "ERROR: Command not found\n"]),
            Ctl.exited 63)) := by
  obtain ⟨r, hr, hhead⟩ := ioRedirect_returns env.openFd i0 tok0 rest hi0 h0 hops
  have hpd : pathDirs (colonJoin comps) = dirs := by
    rw [hdirs]; exact pathDirs_colonJoin comps hcomps
  have heq := runExternalCommandChild_eq MAXLINE env i0 (tok0 :: rest) (colonJoin comps) tok0 r
    hpath hr hhead
  rw [hpd] at heq
  refine ⟨r, hr, fun ha => ?_, fun ha d hd => ?_, fun ha hno => ?_⟩
  · rw [heq]; simp [ha, hexec _ ha]
  · rw [heq, searchPath_found MAXLINE env hexec tok0 r.argv dirs hfit d hd]
    simp [ha, directAttempt]
  · rw [heq, searchPath_none MAXLINE env tok0 r.argv dirs hfit hno]
    simp [ha, directAttempt]

/-- C9, amended, at `bin/ls -l 1> out` with `PATH=/usr/local::/usr` and only
`/usr/bin/ls` executable: the empty component is skipped, `/usr/local/bin/ls`
is tested first, then `/usr/bin/ls` is tested and executed, although token 0
contains `"/"`. -/
theorem C9_search_path_use_witness :
    ∃ r, ioRedirect (Env.uniform (fun p => p == "/usr/bin/ls") (some "/usr/local::/usr") none).openFd
        0 ["bin/ls", "-l", "1>", "out"] = some r ∧
      runExternalCommandChild 1024
          (Env.uniform (fun p => p == "/usr/bin/ls") (some "/usr/local::/usr") none)
          0 ["bin/ls", "-l", "1>", "out"] =
        (r.events ++ Ev.access (some "bin/ls") false ::
          ((["/usr/local", "/usr"].takeWhile
              (fun e => !(Env.uniform (fun p => p == "/usr/bin/ls") (some "/usr/local::/usr")
                  none).access (e ++ "/" ++ "bin/ls"))).map
              (fun e => Ev.access (some (e ++ "/" ++ "bin/ls")) false)
            ++ [Ev.access (some ("/usr" ++ "/" ++ "bin/ls")) true,
                Ev.execv (some ("/usr" ++ "/" ++ "bin/ls")) r.argv]),
          Ctl.replaced ("/usr" ++ "/" ++ "bin/ls") r.argv) := by
  obtain ⟨r, hr, _, hb, _⟩ :=
    C9_search_path_use 1024
      (Env.uniform (fun p => p == "/usr/bin/ls") (some "/usr/local::/usr") none)
      0 "bin/ls" ["-l", "1>", "out"] ["/usr/local", "", "/usr"] ["/usr/local", "/usr"]
      (by decide) (by decide) (by decide) (fun _ h => h) (by decide) (by decide) (by decide)
      (by decide)
  exact ⟨r, hr, hb (by decide) "/usr" (by decide)⟩

/-- C4, the code at the failing input `cd` with `HOME=/nonexistent` and a
failing `chdir`: the tracked path changes from `/home/user` to `/nonexistent`
although the working directory of the process did not change; and at `cd ..`
with a failing `chdir` the tracked path changes to `/home` likewise.  Only the
branch with an explicit argument tests the result of `chdir`. -/
theorem C4_tracked_path_changes_when_chdir_fails :
    runCD (Env.uniform (fun _ => false) none (some "/nonexistent")) ["cd"] "/home/user"
      = some { cwd := "/nonexistent", chdirTarget := "/nonexistent", chdirOk := false, out := [] } ∧
    runCD (Env.uniform (fun _ => false) none (some "/nonexistent")) ["cd", ".."] "/home/user"
      = some { cwd := "/home", chdirTarget := "/home", chdirOk := false, out := [] } ∧
    runCD (Env.uniform (fun _ => false) none (some "/nonexistent")) ["cd", "docs"] "/home/user"
      = some { cwd := "/home/user", chdirTarget := "/home/user/docs", chdirOk := false,
               out := [Ev.stdout "Error: Directory does not exist\n"] } := by
  decide

/-- C5, the code at the failing input `nosuchcmd | alsomissing` where `execvp`
fails for both programs.  The first child (first `fork` returned 0) reports
with `perror` and then returns from `run_pipe` to its caller; the second child
(second `fork` returned 0) reports, then closes both pipe ends, waits on both
process ids and returns from `run_pipe`.  Neither child calls `exit`. -/
theorem C5_failed_stage_returns_to_interpreter :
    call_pipe (Env.uniform (fun _ => false) (some "/bin") none) 0 0 3 4
        ["nosuchcmd", "|", "alsomissing"] false
      = ([Ev.close 3, Ev.dup2 4 1, Ev.execvp (some "nosuchcmd") ["nosuchcmd"],
          Ev.perror (some "nosuchcmd")], Ctl.returned) ∧
    call_pipe (Env.uniform (fun _ => false) (some "/bin") none) 100 0 3 4
        ["nosuchcmd", "|", "alsomissing"] false
      = ([Ev.close 4, Ev.dup2 3 0, Ev.execvp (some "alsomissing") ["alsomissing"],
          Ev.perror (some "alsomissing"), Ev.close 3, Ev.close 4,
          Ev.waitpid 100 false, Ev.waitpid 0 false], Ctl.returned) := by
  decide

/-- C7, the code at the failing input `cd ..` with the tracked path `home`
(as left by `cd` when `HOME=home`): `dirname` returns a static `"."` and does
not touch the buffer, and the assignment `cwd = dirname(cwd)` changes only the
local pointer, so the tracked path is still `home` and not its parent. -/
theorem C7_parent_of_slashless_path_not_tracked :
    runCD (Env.uniform (fun _ => true) none (some "home")) ["cd"] "/srv"
      = some { cwd := "home", chdirTarget := "home", chdirOk := true, out := [] } ∧
    dirname "home" = ("home", ".") ∧
    runCD (Env.uniform (fun _ => true) none (some "home")) ["cd", ".."] "home"
      = some { cwd := "home", chdirTarget := ".", chdirOk := true, out := [] } := by
  decide

/-- C8, the code at the failing input `!2147483648` with no such history
entry: for a 64-bit and for a 32-bit `unsigned long` alike the text sent to
the error stream names `-2147483648`.  And at `!4294967297` the entry looked
up is number 1. -/
theorem C8_history_index_printed_signed :
    handleCommand 64 none (fun _ => none) "!2147483648" []
      = Dispatch.historyError "ERROR: -2147483648 is not in history\n" ∧
    handleCommand 32 none (fun _ => none) "!2147483648" []
      = Dispatch.historyError "ERROR: -2147483648 is not in history\n" ∧
    handleCommand 64 none (fun n => if n = 1 then some "ls" else none) "!4294967297" []
      = Dispatch.parseAndExecute "ls" ∧
    handleCommand 64 none (fun _ => none) "!7" []
      = Dispatch.historyError "ERROR: 7 is not in history\n" := by
  decide

end Tosh
